import Mathlib

/-!
Shallow embedding of the canvas slide-rendering core of the
`instagram_carrousel` repository (`src/js/canvas.js`), together with proofs
of the specified properties of its text-wrapping, background compositing,
logo placement and slide/batch rendering pipeline.

The repository file `src/js/canvas.js` contains two variants of the
`CanvasModule` IIFE, separated by a document marker.  Variant 1
(lines 1-190) is the one with logo support; variant 2 (lines 191-536) is
the earlier one.  Definitions below are transliterated from variant 1
unless their name carries a `2` suffix, in which case they come from
variant 2.

Modelling conventions:
- JavaScript numbers are modelled as `ℚ` (all arithmetic performed by the
  core is exact decimal / rational arithmetic on layout quantities).
- `ctx.measureText(s).width` is modelled by an arbitrary measurer
  `m : String → ℚ` (a canvas context's text measurement, abstracted).
- The 2D canvas context is modelled as an explicit record `Ctx` of the
  drawing-state fields the module touches, plus a list of emitted drawing
  operations; each emitted operation records a snapshot of the context
  state at the moment of drawing (this is what determines the rasterised
  pixels for that operation).
- `String.prototype.split(' ')` is modelled by `splitOnSpaces` below,
  which reproduces the JavaScript behaviour exactly: splitting on every
  single space character, keeping empty fragments, and producing `[""]`
  for the empty string.
- JavaScript string truthiness (`s ? a : b`) is modelled by comparison
  with `""`; nullable values are modelled with `Option`, and destructuring
  defaults (`const { x = d } = o`) by `Option.getD`.
-/

/-- Model of JavaScript `String.prototype.split(' ')`, processing the
character list: `acc` holds the (reversed) characters of the fragment
currently being accumulated. -/
def splitAux : List Char → List Char → List String
  | [], acc => [String.mk acc.reverse]
  | c :: cs, acc =>
      if c = ' ' then String.mk acc.reverse :: splitAux cs []
      else splitAux cs (c :: acc)

/-- `text.split(' ')` from the source: split on every single space,
keeping empty fragments; the empty string yields `[""]`. -/
def splitOnSpaces (s : String) : List String :=
  splitAux s.data []

/-- Joining a list of words with single spaces (the inverse of
`splitOnSpaces`); used to state properties about "the input's words
joined by single spaces". -/
def joinSp : List String → String
  | [] => ""
  | [w] => w
  | w :: x :: xs => w ++ " " ++ joinSp (x :: xs)

/-- One iteration of the `for (const word of words)` loop of
`getWrappedLines` (canvas.js variant 1, lines 54-62).  State is the pair
(committed lines, current accumulator line).  `testLine` is
`currentLine ? currentLine + " " + word : word`; the accumulator is
committed exactly when `ctx.measureText(testLine).width > maxWidth &&
currentLine`. -/
def wrapStep (m : String → ℚ) (maxWidth : ℚ) (st : List String × String)
    (word : String) : List String × String :=
  let testLine := if st.2 = "" then word else st.2 ++ " " ++ word
  if m testLine > maxWidth ∧ st.2 ≠ "" then (st.1 ++ [st.2], word)
  else (st.1, testLine)

/-- `getWrappedLines(ctx, text, maxWidth)` of canvas.js variant 1
(lines 50-65).  After the loop, a non-empty accumulator is pushed
(`if (currentLine) lines.push(currentLine)`), and the final result is
`lines.length ? lines : ['']`. -/
def getWrappedLines (m : String → ℚ) (text : String) (maxWidth : ℚ) :
    List String :=
  let words := splitOnSpaces text
  let p := words.foldl (wrapStep m maxWidth) ([], "")
  let lines := if p.2 = "" then p.1 else p.1 ++ [p.2]
  if lines = [] then [""] else lines

/-- One iteration of the word loop of `getWrappedLines` of canvas.js
variant 2 (lines 279-289); the measured width is taken through the
`metrics` intermediate of the source. -/
def wrapStep2 (m : String → ℚ) (maxWidth : ℚ) (st : List String × String)
    (word : String) : List String × String :=
  let testLine := if st.2 = "" then word else st.2 ++ " " ++ word
  let metricsWidth := m testLine
  if metricsWidth > maxWidth ∧ st.2 ≠ "" then (st.1 ++ [st.2], word)
  else (st.1, testLine)

/-- `getWrappedLines(ctx, text, maxWidth)` of canvas.js variant 2
(lines 274-301): same loop, then `if (currentLine) lines.push(currentLine)`
and `if (lines.length === 0) lines.push('')`. -/
def getWrappedLines2 (m : String → ℚ) (text : String) (maxWidth : ℚ) :
    List String :=
  let words := splitOnSpaces text
  let p := words.foldl (wrapStep2 m maxWidth) ([], "")
  let lines := if p.2 = "" then p.1 else p.1 ++ [p.2]
  if lines.length = 0 then lines ++ [""] else lines

/-- The word loop of the spec's greedy line-fill algorithm (spec §4.1),
written as the spec describes it: "Maintain an accumulator line; for each
word, form a candidate by appending the word to the accumulator
(space-joined).  If the candidate's measured width exceeds `maxWidth` AND
the accumulator is non-empty, commit the accumulator as a completed line
and start a new accumulator from the word; otherwise adopt the candidate
as the new accumulator.  After processing all words, commit any non-empty
accumulator." -/
def wrapWords (m : String → ℚ) (maxWidth : ℚ) (acc : String) :
    List String → List String
  | [] => if acc = "" then [] else [acc]
  | w :: ws =>
      let candidate := if acc = "" then w else acc ++ " " ++ w
      if m candidate > maxWidth ∧ acc ≠ "" then
        acc :: wrapWords m maxWidth w ws
      else wrapWords m maxWidth candidate ws

/-- `wrapText(text, maxWidth, measurer)` as specified in §4.1 of the
spec: split the text on single spaces into words, run the greedy
accumulator loop, and "if the input text is empty or produces zero lines,
return a single empty-string line". -/
def wrapText (text : String) (maxWidth : ℚ) (m : String → ℚ) :
    List String :=
  let ls := wrapWords m maxWidth "" (splitOnSpaces text)
  if ls = [] then [""] else ls

/-- A concrete measurer (each character one unit wide), used for witnesses
and counterexamples. -/
def measLen (s : String) : ℚ := s.data.length

/-- Canvas dimensions and paddings (canvas.js variant 1, lines 6-9). -/
def CANVAS_WIDTH : ℚ := 1080

/-- Canvas height constant (canvas.js line 7). -/
def CANVAS_HEIGHT : ℚ := 1350

/-- Inner text padding constant (canvas.js line 8). -/
def PADDING : ℚ := 80

/-- Logo margin constant (canvas.js line 9). -/
def LOGO_PADDING : ℚ := 40

/-- The drawing-state fields of a 2D canvas context that the module
touches. -/
structure Ctx where
  fillStyle : String
  font : String
  textAlign : String
  textBaseline : String
  shadowColor : String
  shadowBlur : ℚ
  shadowOffsetX : ℚ
  shadowOffsetY : ℚ
  deriving DecidableEq, Repr, Inhabited

/-- The context state of a freshly created canvas (`createCanvas` +
`getContext('2d')`): the initial values mandated for a 2D context. -/
def initialCtx : Ctx :=
  { fillStyle := "#000000"
    font := "10px sans-serif"
    textAlign := "start"
    textBaseline := "alphabetic"
    shadowColor := "rgba(0, 0, 0, 0)"
    shadowBlur := 0
    shadowOffsetX := 0
    shadowOffsetY := 0 }

/-- A decoded image: the only attributes the module reads are its pixel
width and height. -/
structure Img where
  width : ℚ
  height : ℚ
  deriving DecidableEq, Repr

/-- A drawing primitive issued to the context: a filled rectangle
(`fillRect`), a drawn image rectangle (`drawImage`), or a drawn text run
(`fillText`). -/
inductive Shape where
  | rect (x y w h : ℚ)
  | image (img : Img) (x y w h : ℚ)
  | text (s : String) (x y : ℚ)
  deriving DecidableEq, Repr, Inhabited

/-- One emitted drawing operation: the context-state snapshot in force at
the moment of drawing (which determines the rendered pixels), together
with the primitive drawn. -/
abbrev DrawOp := Ctx × Shape

/-- The rendered raster of one slide.  `canvas.toDataURL('image/png', 1.0)`
is a pure, injective encoding of the canvas contents, which are in turn
determined by the sequence of drawing operations; the encoding step is
abstracted away and a rendered image is identified with that sequence. -/
abbrev RenderedImage := List DrawOp

/-- `drawColorBackground(ctx, color)` (canvas.js lines 27-30):
set `fillStyle` and fill the whole canvas. -/
def drawColorBackground (st : Ctx) (color : String) : Ctx × List DrawOp :=
  let st1 := { st with fillStyle := color }
  (st1, [(st1, Shape.rect 0 0 CANVAS_WIDTH CANVAS_HEIGHT)])

/-- `drawImageBackground(ctx, img)` (canvas.js lines 32-48): cover-fit
draw of the background image. -/
def drawImageBackground (st : Ctx) (img : Img) : Ctx × List DrawOp :=
  let imgRatio := img.width / img.height
  let canvasRatio := CANVAS_WIDTH / CANVAS_HEIGHT
  if imgRatio > canvasRatio then
    let drawHeight := CANVAS_HEIGHT
    let drawWidth := img.width * (CANVAS_HEIGHT / img.height)
    let drawX := (CANVAS_WIDTH - drawWidth) / 2
    let drawY := (0 : ℚ)
    (st, [(st, Shape.image img drawX drawY drawWidth drawHeight)])
  else
    let drawWidth := CANVAS_WIDTH
    let drawHeight := img.height * (CANVAS_WIDTH / img.width)
    let drawX := (0 : ℚ)
    let drawY := (CANVAS_HEIGHT - drawHeight) / 2
    (st, [(st, Shape.image img drawX drawY drawWidth drawHeight)])

/-- The options object passed to `drawText` (canvas.js line 68);
absent fields take the destructuring defaults. -/
structure TextOptions where
  fontFamily : Option String
  fontSize : Option ℚ
  color : Option String
  align : Option String

/-- `drawText(ctx, text, options)` (canvas.js variant 1, lines 67-85):
set font/fill/align/baseline, wrap the text to `CANVAS_WIDTH - 2*PADDING`,
vertically centre the block, set the drop shadow, draw each line, and
finally reset `shadowColor` to `'transparent'`. -/
def drawText (m : String → ℚ) (st : Ctx) (text : String)
    (options : TextOptions) : Ctx × List DrawOp :=
  let fontFamily := options.fontFamily.getD "Montserrat"
  let fontSize := options.fontSize.getD 64
  let color := options.color.getD "#ffffff"
  let align := options.align.getD "center"
  let st1 := { st with
    font := "bold " ++ toString fontSize ++ "px \"" ++ fontFamily
      ++ "\", sans-serif"
    fillStyle := color
    textAlign := align
    textBaseline := "middle" }
  let maxWidth := CANVAS_WIDTH - PADDING * 2
  let lines := getWrappedLines m text maxWidth
  let lineHeight := fontSize * (13 / 10 : ℚ)
  let totalHeight := (lines.length : ℚ) * lineHeight
  let startY := (CANVAS_HEIGHT - totalHeight) / 2 + lineHeight / 2
  let x := if align = "left" then PADDING
    else if align = "right" then CANVAS_WIDTH - PADDING
    else CANVAS_WIDTH / 2
  let st2 := { st1 with
    shadowColor := "rgba(0, 0, 0, 0.5)"
    shadowBlur := 10
    shadowOffsetX := 2
    shadowOffsetY := 2 }
  let ops := lines.enum.map fun p =>
    (st2, Shape.text p.2 x (startY + (p.1 : ℚ) * lineHeight))
  ({ st2 with shadowColor := "transparent" }, ops)

/-- The options object passed to `drawLogo` (canvas.js line 88). -/
structure LogoOptions where
  position : Option String
  size : Option ℚ

/-- `drawLogo(ctx, logoImg, options)` (canvas.js lines 87-126):
aspect-preserving scaling to `size`, then corner placement with
`LOGO_PADDING` margins; the `switch` default is bottom-left. -/
def drawLogo (st : Ctx) (logoImg : Img) (options : LogoOptions) :
    Ctx × List DrawOp :=
  let position := options.position.getD "bottom-left"
  let size := options.size.getD 80
  let aspectRatio := logoImg.width / logoImg.height
  let logoWidth := if aspectRatio ≥ 1 then size else size * aspectRatio
  let logoHeight := if aspectRatio ≥ 1 then size / aspectRatio else size
  let x :=
    if position = "top-left" then LOGO_PADDING
    else if position = "top-right" then
      CANVAS_WIDTH - logoWidth - LOGO_PADDING
    else if position = "bottom-left" then LOGO_PADDING
    else if position = "bottom-right" then
      CANVAS_WIDTH - logoWidth - LOGO_PADDING
    else LOGO_PADDING
  let y :=
    if position = "top-left" then LOGO_PADDING
    else if position = "top-right" then LOGO_PADDING
    else if position = "bottom-left" then
      CANVAS_HEIGHT - logoHeight - LOGO_PADDING
    else if position = "bottom-right" then
      CANVAS_HEIGHT - logoHeight - LOGO_PADDING
    else CANVAS_HEIGHT - logoHeight - LOGO_PADDING
  (st, [(st, Shape.image logoImg x y logoWidth logoHeight)])

/-- Per-slide data (`slideData` destructured at canvas.js line 131);
`none` models an absent (undefined/null) field. -/
structure SlideData where
  text : Option String
  backgroundType : Option String
  backgroundColor : Option String
  backgroundImage : Option String

/-- Global render settings (`globalSettings` destructured at canvas.js
line 132). -/
structure GlobalSettings where
  fontFamily : Option String
  fontSize : Option ℚ
  textColor : Option String
  textAlign : Option String

/-- Logo settings (`logoSettings` consumed at canvas.js lines 154-157). -/
structure LogoSettings where
  enabled : Bool
  image : Option String
  position : Option String
  size : Option ℚ

/-- JavaScript truthiness of an optional string value (`null`/`undefined`
and `''` are falsy). -/
def truthyStr : Option String → Bool
  | none => false
  | some s => s ≠ ""

/-- `loadImage(src)` (canvas.js lines 18-25): resolves with the decoded
image or rejects with `'Failed to load image'`.  The image environment is
a function `load` from source references to optionally-decodable images;
a rejected promise is modelled by `Except.error`. -/
def loadImage (load : String → Option Img) (src : String) :
    Except String Img :=
  match load src with
  | some img => Except.ok img
  | none => Except.error "Failed to load image"

/-- The canvas contents produced by `generateSlide(slideData,
globalSettings, logoSettings)` (canvas.js lines 128-164): background
(cover-fit image plus scrim, or solid colour, with solid-colour fallback
when the image load rejects), then text when `text.trim()` is truthy,
then the logo when enabled and present (a failed logo load only logs).
Both `await loadImage(..)` calls sit inside `try`/`catch`, modelled by the
`match` on the `Except` result. -/
def generateSlideOps (m : String → ℚ) (load : String → Option Img)
    (slideData : SlideData) (globalSettings : GlobalSettings)
    (logoSettings : Option LogoSettings) : List DrawOp :=
  let text := slideData.text.getD ""
  let backgroundType := slideData.backgroundType.getD "color"
  let backgroundColor := slideData.backgroundColor.getD "#211D58"
  let backgroundImage := slideData.backgroundImage
  let fontFamily := globalSettings.fontFamily.getD "Montserrat"
  let fontSize := globalSettings.fontSize.getD 64
  let textColor := globalSettings.textColor.getD "#ffffff"
  let textAlign := globalSettings.textAlign.getD "center"
  let bg : Ctx × List DrawOp :=
    if backgroundType = "image" ∧ truthyStr backgroundImage then
      match loadImage load (backgroundImage.getD "") with
      | Except.ok img =>
          let r := drawImageBackground initialCtx img
          let st1 := { r.1 with fillStyle := "rgba(0, 0, 0, 0.3)" }
          (st1, r.2 ++ [(st1, Shape.rect 0 0 CANVAS_WIDTH CANVAS_HEIGHT)])
      | Except.error _ => drawColorBackground initialCtx backgroundColor
    else drawColorBackground initialCtx backgroundColor
  let txt : Ctx × List DrawOp :=
    if text.trim ≠ "" then
      drawText m bg.1 text
        ⟨some fontFamily, some fontSize, some textColor, some textAlign⟩
    else (bg.1, [])
  let lg : Ctx × List DrawOp :=
    match logoSettings with
    | some l =>
        if l.enabled ∧ truthyStr l.image then
          match loadImage load (l.image.getD "") with
          | Except.ok logoImg => drawLogo txt.1 logoImg ⟨l.position, l.size⟩
          | Except.error _ => (txt.1, [])
        else (txt.1, [])
    | none => (txt.1, [])
  bg.2 ++ txt.2 ++ lg.2

/-- `generateSlide` (canvas.js lines 128-164), as the promise outcome an
`await`er observes.  Both awaited image loads are wrapped in `try`/`catch`
inside the function body (lines 136-143 and 155-160), so the returned
promise always resolves, with the data URL of the drawn canvas — i.e. the
value is always `Except.ok` of the canvas contents. -/
def generateSlide (m : String → ℚ) (load : String → Option Img)
    (slideData : SlideData) (globalSettings : GlobalSettings)
    (logoSettings : Option LogoSettings) : Except String RenderedImage :=
  Except.ok (generateSlideOps m load slideData globalSettings logoSettings)

/-- `generateAllSlides(slidesData, globalSettings, logoSettings)`
(canvas.js lines 166-172): a sequential loop that awaits each
`generateSlide` before starting the next and pushes its image; a rejected
slide render would propagate out of the loop. -/
def generateAllSlides (m : String → ℚ) (load : String → Option Img)
    (slidesData : List SlideData) (globalSettings : GlobalSettings)
    (logoSettings : Option LogoSettings) :
    Except String (List RenderedImage) :=
  match slidesData with
  | [] => Except.ok []
  | slide :: rest =>
      match generateSlide m load slide globalSettings logoSettings with
      | Except.error e => Except.error e
      | Except.ok img =>
          match generateAllSlides m load rest globalSettings logoSettings with
          | Except.error e => Except.error e
          | Except.ok imgs => Except.ok (img :: imgs)

lemma mk_data (s : String) : String.mk s.data = s := by
  cases s
  rfl

lemma str_eq_empty_iff (s : String) : s = "" ↔ s.data = [] := by
  cases s with
  | mk d =>
    constructor
    · intro h
      rw [h]
    · intro h
      rw [show d = ([] : List Char) from h]

lemma mk_append (l₁ l₂ : List Char) :
    String.mk l₁ ++ String.mk l₂ = String.mk (l₁ ++ l₂) := rfl

lemma splitAux_ne_nil : ∀ (cs : List Char) (acc : List Char),
    splitAux cs acc ≠ [] := by
  intro cs
  induction cs with
  | nil => intro acc; simp [splitAux]
  | cons c cs ih =>
      intro acc
      by_cases h : c = ' ' <;> simp [splitAux, h, ih]

lemma joinSp_cons_ne (a : String) {l : List String} (h : l ≠ []) :
    joinSp (a :: l) = a ++ " " ++ joinSp l := by
  cases l with
  | nil => exact absurd rfl h
  | cons b bs => rfl

lemma splitAux_join : ∀ (cs : List Char) (acc : List Char),
    joinSp (splitAux cs acc) = String.mk (acc.reverse ++ cs) := by
  intro cs
  induction cs with
  | nil => intro acc; simp [splitAux, joinSp]
  | cons c cs ih =>
      intro acc
      by_cases h : c = ' '
      · rw [splitAux, if_pos h,
          joinSp_cons_ne _ (splitAux_ne_nil cs []), ih [], h]
        rw [show (" " : String) = String.mk [' '] from rfl, mk_append,
          mk_append]
        simp
      · rw [splitAux, if_neg h, ih (c :: acc)]
        simp

lemma join_splitOnSpaces (s : String) : joinSp (splitOnSpaces s) = s := by
  rw [splitOnSpaces, splitAux_join s.data []]
  simp [mk_data]

lemma pref_append_left {α : Type} (p : List α) {l₁ l₂ : List α}
    (h : l₁ <+: l₂) : p ++ l₁ <+: p ++ l₂ := by
  obtain ⟨t, ht⟩ := h
  exact ⟨t, by rw [List.append_assoc, ht]⟩

lemma joinSp_head_pref (a : String) (l : List String) :
    a.data <+: (joinSp (a :: l)).data := by
  cases l with
  | nil => exact ⟨[], by simp [joinSp]⟩
  | cons b bs =>
      refine ⟨(" " ++ joinSp (b :: bs)).data, ?_⟩
      rw [joinSp, String.data_append, String.data_append,
        String.data_append]
      simp

lemma str_append_assoc (a b c : String) :
    (a ++ b) ++ c = a ++ (b ++ c) := by
  cases a with
  | mk da =>
    cases b with
    | mk db =>
      cases c with
      | mk dc =>
        show String.mk _ = String.mk _
        rw [List.append_assoc]

lemma joinSp_merge (a b : String) (l : List String) :
    joinSp ((a ++ " " ++ b) :: l) = joinSp (a :: b :: l) := by
  cases l with
  | nil => rfl
  | cons c cs =>
      rw [joinSp_cons_ne _ (l := c :: cs) (by simp),
        joinSp_cons_ne a (l := b :: c :: cs) (by simp),
        joinSp_cons_ne b (l := c :: cs) (by simp)]
      simp only [str_append_assoc]

lemma append_ne_empty_left {a : String} (b : String) (h : a ≠ "") :
    a ++ b ≠ "" := by
  intro hc
  rw [str_eq_empty_iff, String.data_append, List.append_eq_nil] at hc
  exact h ((str_eq_empty_iff a).mpr hc.1)

lemma wrapFold_eq (m : String → ℚ) (maxWidth : ℚ) :
    ∀ (ws : List String) (lines : List String) (cur : String),
    (let p := List.foldl (wrapStep m maxWidth) (lines, cur) ws
     if p.2 = "" then p.1 else p.1 ++ [p.2]) =
      lines ++ wrapWords m maxWidth cur ws := by
  intro ws
  induction ws with
  | nil =>
      intro lines cur
      simp only [List.foldl_nil, wrapWords]
      by_cases h : cur = "" <;> simp [h]
  | cons w ws ih =>
      intro lines cur
      simp only [List.foldl_cons, wrapStep, wrapWords]
      by_cases h : m (if cur = "" then w else cur ++ " " ++ w) > maxWidth
          ∧ cur ≠ ""
      · simp only [if_pos h]
        rw [ih]
        simp
      · simp only [if_neg h]
        rw [ih]

/-- C1: `getWrappedLines` (canvas.js variant 1, lines 50-65) implements
the greedy line-fill algorithm exactly as the spec states it: for every
text, `maxWidth` and measurer, its result equals that of `wrapText`, the
algorithm of spec §4.1 (split on single spaces, greedy accumulator with
commit exactly when the candidate overflows and the accumulator is
non-empty, final commit of a non-empty accumulator, and the specified
zero-lines fallback to a single empty line). -/
theorem getWrappedLines_implements_spec (m : String → ℚ) (text : String)
    (maxWidth : ℚ) :
    getWrappedLines m text maxWidth = wrapText text maxWidth m := by
  have h := wrapFold_eq m maxWidth (splitOnSpaces text) [] ""
  simp only [List.nil_append] at h
  simp only [getWrappedLines, wrapText, h]

/-- C10: the two `getWrappedLines` implementations in the repository
(canvas.js variant 1 lines 50-65 and variant 2 lines 274-301) are
extensionally equal: same lines for every measurer, text and `maxWidth`. -/
theorem getWrappedLines_variants_eq (m : String → ℚ) (text : String)
    (maxWidth : ℚ) :
    getWrappedLines m text maxWidth = getWrappedLines2 m text maxWidth := by
  have hstep : wrapStep m maxWidth = wrapStep2 m maxWidth := rfl
  simp only [getWrappedLines, getWrappedLines2, hstep]
  set p := (splitOnSpaces text).foldl (wrapStep2 m maxWidth) ([], "") with hp
  by_cases h2 : p.2 = ""
  · simp only [if_pos h2]
    by_cases h1 : p.1 = [] <;>
      simp [h1, List.length_eq_zero]
  · simp only [if_neg h2]
    have hne : p.1 ++ [p.2] ≠ [] := by simp
    simp [hne, List.length_eq_zero]

/-- C4: for every measurer, text and `maxWidth`, `getWrappedLines`
returns a non-empty list of lines, and for the empty input text it
returns exactly one line, the empty string. -/
theorem getWrappedLines_nonempty (m : String → ℚ) (text : String)
    (maxWidth : ℚ) :
    0 < (getWrappedLines m text maxWidth).length ∧
      getWrappedLines m "" maxWidth = [""] := by
  constructor
  · simp only [getWrappedLines]
    set p := (splitOnSpaces text).foldl (wrapStep m maxWidth) ([], "")
    by_cases h2 : p.2 = ""
    · simp only [if_pos h2]
      by_cases h1 : p.1 = [] <;> simp [h1, List.length_pos]
    · simp only [if_neg h2]
      have hne : p.1 ++ [p.2] ≠ [] := by simp
      simp [hne, List.length_pos]
  · have hsplit : splitOnSpaces "" = [""] := rfl
    simp [getWrappedLines, hsplit, wrapStep]

lemma splitAux_no_space : ∀ (cs : List Char) (acc : List Char),
    (∀ c ∈ cs, c ≠ ' ') → splitAux cs acc =
      [String.mk (acc.reverse ++ cs)] := by
  intro cs
  induction cs with
  | nil => intro acc _; simp [splitAux]
  | cons c cs ih =>
      intro acc h
      have hc : c ≠ ' ' := h c (by simp)
      rw [splitAux, if_neg hc, ih (c :: acc) (fun d hd => h d (by simp [hd]))]
      simp

lemma splitOnSpaces_single {text : String}
    (h : ∀ c ∈ text.data, c ≠ ' ') : splitOnSpaces text = [text] := by
  rw [splitOnSpaces, splitAux_no_space text.data [] h]
  simp [mk_data]

/-- C5: a text consisting of a single word (no space characters) whose
measured width exceeds `maxWidth` is returned by `getWrappedLines` as its
own single line, untruncated and unsplit. -/
theorem getWrappedLines_singleWord (m : String → ℚ) (text : String)
    (maxWidth : ℚ) (hne : text ≠ "")
    (hword : ∀ c ∈ text.data, c ≠ ' ')
    (_hwide : m text > maxWidth) :
    getWrappedLines m text maxWidth = [text] := by
  rw [getWrappedLines, splitOnSpaces_single hword]
  simp [wrapStep, hne]

/-- Witness for C5 at a concrete input: the two-character word `"ab"`
measured at width 2 against `maxWidth = 1`. -/
theorem getWrappedLines_singleWord_witness :
    ("ab" : String) ≠ "" ∧ measLen "ab" > 1 ∧
      getWrappedLines measLen "ab" 1 = ["ab"] :=
  ⟨by decide, by decide,
    getWrappedLines_singleWord measLen "ab" 1 (by decide) (by decide)
      (by decide)⟩

lemma foldl_no_commit (m : String → ℚ) (maxWidth : ℚ)
    (mono : ∀ s t : String, s.data <+: t.data → m s ≤ m t) :
    ∀ (ws : List String) (lines : List String) (cur : String),
    cur ≠ "" → m (joinSp (cur :: ws)) ≤ maxWidth →
    List.foldl (wrapStep m maxWidth) (lines, cur) ws =
      (lines, joinSp (cur :: ws)) := by
  intro ws
  induction ws with
  | nil =>
      intro lines cur _ _
      simp [joinSp]
  | cons w ws ih =>
      intro lines cur hcur hfit
      have htest : m (cur ++ " " ++ w) ≤ maxWidth := by
        refine le_trans (mono _ _ ?_) hfit
        rw [joinSp_cons_ne cur (l := w :: ws) (by simp)]
        simp only [String.data_append]
        exact pref_append_left _ (joinSp_head_pref w ws)
      have hnot : ¬(m (if cur = "" then w else cur ++ " " ++ w) > maxWidth
          ∧ cur ≠ "") := by
        rw [if_neg hcur]
        intro hand
        exact absurd htest (not_le.mpr hand.1)
      simp only [List.foldl_cons, wrapStep, if_neg hnot]
      have hcur2 : cur ++ " " ++ w ≠ "" :=
        append_ne_empty_left w (append_ne_empty_left " " hcur)
      have hfit2 : m (joinSp ((cur ++ " " ++ w) :: ws)) ≤ maxWidth := by
        rw [joinSp_merge]
        exact hfit
      rw [if_neg hcur, ih lines (cur ++ " " ++ w) hcur2 hfit2, joinSp_merge]

lemma splitAux_head : ∀ (cs : List Char) (acc : List Char),
    ∃ w ws, splitAux cs acc = w :: ws ∧ acc.reverse <+: w.data := by
  intro cs
  induction cs with
  | nil =>
      intro acc
      exact ⟨String.mk acc.reverse, [], rfl, ⟨[], by simp⟩⟩
  | cons c cs ih =>
      intro acc
      by_cases h : c = ' '
      · exact ⟨String.mk acc.reverse, splitAux cs [],
          by simp [splitAux, h], ⟨[], by simp⟩⟩
      · obtain ⟨w, ws, hw, hpref⟩ := ih (c :: acc)
        refine ⟨w, ws, by simp [splitAux, h, hw], ?_⟩
        have hp2 : acc.reverse ++ [c] <+: w.data := by simpa using hpref
        obtain ⟨t, ht⟩ := hp2
        exact ⟨[c] ++ t, by rw [← List.append_assoc]; exact ht⟩

/-- C6 counterexample: with the one-unit-per-character measurer and the
text `" a"` (a single leading space), `maxWidth = 2` is at least the
measured width of the whole text, yet `getWrappedLines` returns `["a"]`,
whereas the input's words (`["", "a"]`) joined by single spaces are
`" a"` — so the returned line is not the space-joined input. -/
theorem getWrappedLines_fitting_cex :
    measLen " a" ≤ 2 ∧ getWrappedLines measLen " a" 2 = ["a"] ∧
      joinSp (splitOnSpaces " a") = " a" ∧ ("a" : String) ≠ " a" :=
  ⟨by decide, by decide, by decide, by decide⟩

/-- C6 (amended): for every measurer that is monotone with respect to
string prefixes (true of real text measurement), every non-empty text
whose first character is not a space, and every `maxWidth` at least the
measured width of the whole text, `getWrappedLines` returns exactly one
line, which equals the input's words joined by single spaces (and equals
the input text itself). -/
theorem getWrappedLines_fits_one_line (m : String → ℚ) (text : String)
    (maxWidth : ℚ)
    (mono : ∀ s t : String, s.data <+: t.data → m s ≤ m t)
    (hne : text ≠ "") (hhead : text.data.head? ≠ some ' ')
    (hfit : m text ≤ maxWidth) :
    getWrappedLines m text maxWidth = [text] ∧
      text = joinSp (splitOnSpaces text) := by
  cases htd : text.data with
  | nil => exact absurd ((str_eq_empty_iff text).mpr htd) hne
  | cons c cs =>
      have hc : c ≠ ' ' := by
        rw [htd] at hhead
        simpa using hhead
      have hsplit1 : splitOnSpaces text = splitAux cs [c] := by
        rw [splitOnSpaces, htd, splitAux, if_neg hc]
      obtain ⟨w, ws, hw, hpref⟩ := splitAux_head cs [c]
      have hwne : w ≠ "" := by
        intro hw0
        rw [hw0] at hpref
        obtain ⟨t, ht⟩ := hpref
        simp at ht
      have hjoin : joinSp (w :: ws) = text := by
        rw [← hw, ← hsplit1, join_splitOnSpaces]
      refine ⟨?_, by rw [hsplit1, hw]; exact hjoin.symm⟩
      have hstep1 : wrapStep m maxWidth ([], "") w = ([], w) := by
        simp [wrapStep]
      simp only [getWrappedLines, hsplit1, hw, List.foldl_cons, hstep1]
      rw [foldl_no_commit m maxWidth mono ws [] w hwne
        (by rw [hjoin]; exact hfit), hjoin]
      simp [hne]

lemma measLen_mono (s t : String) (h : s.data <+: t.data) :
    measLen s ≤ measLen t := by
  obtain ⟨u, hu⟩ := h
  have hlen : t.data.length = s.data.length + u.length := by
    rw [← hu, List.length_append]
  simp only [measLen, hlen]
  push_cast
  linarith

/-- Witness for the amended C6 at a concrete input: text `"a b"`, the
one-unit-per-character measurer, `maxWidth = 3`. -/
theorem getWrappedLines_fits_one_line_witness :
    ("a b" : String) ≠ "" ∧ ("a b" : String).data.head? ≠ some ' ' ∧
      measLen "a b" ≤ 3 ∧
      (getWrappedLines measLen "a b" 3 = ["a b"] ∧
        ("a b" : String) = joinSp (splitOnSpaces "a b")) :=
  ⟨by decide, by decide, by decide,
    getWrappedLines_fits_one_line measLen "a b" 3 measLen_mono
      (by decide) (by decide) (by decide)⟩

/-- C2: for every slide whose `backgroundType` is `"image"` but whose
image source fails to load, `generateSlide` resolves (no exception
escapes: the result is `Except.ok`) with the same rendered image as the
solid-colour render of the same slide, whose background operation is a
full-canvas fill with the slide's configured `backgroundColor` (or the
default `'#211D58'` when none is given). -/
theorem generateSlide_imageFallback (m : String → ℚ)
    (load : String → Option Img) (slideData : SlideData)
    (globalSettings : GlobalSettings) (logoSettings : Option LogoSettings)
    (src : String) (hbt : slideData.backgroundType = some "image")
    (hbi : slideData.backgroundImage = some src) (hsrc : src ≠ "")
    (hload : load src = none) :
    generateSlide m load slideData globalSettings logoSettings =
      generateSlide m load
        { slideData with backgroundType := some "color" }
        globalSettings logoSettings ∧
    generateSlide m load slideData globalSettings logoSettings =
      Except.ok
        (generateSlideOps m load slideData globalSettings logoSettings) ∧
    (generateSlideOps m load slideData globalSettings
        logoSettings).head? =
      some ({ initialCtx with
          fillStyle := slideData.backgroundColor.getD "#211D58" },
        Shape.rect 0 0 CANVAS_WIDTH CANVAS_HEIGHT) := by
  have hbg : (generateSlideOps m load slideData globalSettings
      logoSettings) = generateSlideOps m load
      { slideData with backgroundType := some "color" }
      globalSettings logoSettings := by
    simp [generateSlideOps, hbt, hbi, hsrc, hload, loadImage, truthyStr]
  refine ⟨by simp [generateSlide, hbg], rfl, ?_⟩
  simp [generateSlideOps, hbt, hbi, hsrc, hload, loadImage, truthyStr,
    drawColorBackground]

/-- An image environment in which every load fails, for witnesses. -/
def noLoad : String → Option Img := fun _ => none

/-- Witness for C2 at a concrete input: a slide with
`backgroundType: "image"`, source `"bad"` that fails to load, and
configured colour `"#ff0000"`. -/
theorem generateSlide_imageFallback_witness :
    (SlideData.mk (some "t") (some "image") (some "#ff0000")
        (some "bad")).backgroundType = some "image" ∧
    ("bad" : String) ≠ "" ∧ noLoad "bad" = none ∧
    (generateSlide measLen noLoad
        (SlideData.mk (some "t") (some "image") (some "#ff0000")
          (some "bad"))
        (GlobalSettings.mk none none none none) none =
      generateSlide measLen noLoad
        { SlideData.mk (some "t") (some "image") (some "#ff0000")
            (some "bad") with backgroundType := some "color" }
        (GlobalSettings.mk none none none none) none ∧
    generateSlide measLen noLoad
        (SlideData.mk (some "t") (some "image") (some "#ff0000")
          (some "bad"))
        (GlobalSettings.mk none none none none) none =
      Except.ok (generateSlideOps measLen noLoad
        (SlideData.mk (some "t") (some "image") (some "#ff0000")
          (some "bad"))
        (GlobalSettings.mk none none none none) none) ∧
    (generateSlideOps measLen noLoad
        (SlideData.mk (some "t") (some "image") (some "#ff0000")
          (some "bad"))
        (GlobalSettings.mk none none none none) none).head? =
      some ({ initialCtx with
          fillStyle := (SlideData.mk (some "t") (some "image")
            (some "#ff0000") (some "bad")).backgroundColor.getD "#211D58" },
        Shape.rect 0 0 CANVAS_WIDTH CANVAS_HEIGHT)) :=
  ⟨rfl, by decide, rfl,
    generateSlide_imageFallback measLen noLoad
      (SlideData.mk (some "t") (some "image") (some "#ff0000") (some "bad"))
      (GlobalSettings.mk none none none none) none "bad" rfl rfl
      (by decide) rfl⟩

/-- C3: the batch renderer `generateAllSlides` (canvas.js lines 166-172)
resolves with exactly one rendered image per input slide, in input order,
the i-th output being `generateSlide` of the i-th input (here: the map of
the slide-rendering function over the input list), with no filtering and
no early termination; slide-level recoverable failures are absorbed
inside `generateSlide`, so the loop always runs to completion.  The
strictly sequential awaiting of each slide is modelled by the sequential
recursion of `generateAllSlides`. -/
theorem generateAllSlides_mapsAll (m : String → ℚ)
    (load : String → Option Img) (slidesData : List SlideData)
    (globalSettings : GlobalSettings) (logoSettings : Option LogoSettings) :
    generateAllSlides m load slidesData globalSettings logoSettings =
      Except.ok (slidesData.map fun s =>
        generateSlideOps m load s globalSettings logoSettings) := by
  induction slidesData with
  | nil => rfl
  | cons s rest ih => simp [generateAllSlides, generateSlide, ih]

/-- C7: for every background image with positive dimensions,
`drawImageBackground` computes cover fit exactly as specified — if
`imgRatio > canvasRatio` the drawn height is the canvas height with the
rectangle centred horizontally (`drawX = (1080 - drawWidth)/2`,
`drawY = 0`), otherwise the drawn width is the canvas width with the
rectangle centred vertically (`drawX = 0`,
`drawY = (1350 - drawHeight)/2`) — and in both cases the drawn rectangle
fully covers the canvas. -/
theorem drawImageBackground_cover (st : Ctx) (img : Img)
    (hw : 0 < img.width) (hh : 0 < img.height) :
    ∃ dx dy dw dh,
      drawImageBackground st img =
        (st, [(st, Shape.image img dx dy dw dh)]) ∧
      (if img.width / img.height > CANVAS_WIDTH / CANVAS_HEIGHT then
        dh = CANVAS_HEIGHT ∧ dw = img.width * (CANVAS_HEIGHT / img.height)
          ∧ dx = (CANVAS_WIDTH - dw) / 2 ∧ dy = 0
      else
        dw = CANVAS_WIDTH ∧ dh = img.height * (CANVAS_WIDTH / img.width)
          ∧ dx = 0 ∧ dy = (CANVAS_HEIGHT - dh) / 2) ∧
      dx ≤ 0 ∧ dy ≤ 0 ∧ CANVAS_WIDTH ≤ dx + dw ∧
        CANVAS_HEIGHT ≤ dy + dh := by
  by_cases hr : img.width / img.height > CANVAS_WIDTH / CANVAS_HEIGHT
  · have hr2 : (1080 : ℚ) / 1350 < img.width / img.height := hr
    rw [div_lt_div_iff₀ (by norm_num) hh] at hr2
    have hdw : (1080 : ℚ) ≤ img.width * (1350 / img.height) := by
      rw [← mul_div_assoc, le_div_iff₀ hh]
      linarith
    refine ⟨(CANVAS_WIDTH - img.width * (CANVAS_HEIGHT / img.height)) / 2,
      0, img.width * (CANVAS_HEIGHT / img.height), CANVAS_HEIGHT,
      by simp only [drawImageBackground, if_pos hr],
      by rw [if_pos hr]; exact ⟨rfl, rfl, rfl, rfl⟩, ?_, le_refl 0, ?_, ?_⟩
    · show ((1080 : ℚ) - img.width * (1350 / img.height)) / 2 ≤ 0
      linarith
    · show (1080 : ℚ) ≤
        ((1080 : ℚ) - img.width * (1350 / img.height)) / 2 +
          img.width * (1350 / img.height)
      linarith
    · show (1350 : ℚ) ≤ 0 + 1350
      norm_num
  · have hr2 : img.width / img.height ≤ (1080 : ℚ) / 1350 := not_lt.mp hr
    rw [div_le_div_iff₀ hh (by norm_num)] at hr2
    have hdh : (1350 : ℚ) ≤ img.height * (1080 / img.width) := by
      rw [← mul_div_assoc, le_div_iff₀ hw]
      linarith
    refine ⟨0, (CANVAS_HEIGHT - img.height * (CANVAS_WIDTH / img.width)) / 2,
      CANVAS_WIDTH, img.height * (CANVAS_WIDTH / img.width),
      by simp only [drawImageBackground, if_neg hr],
      by rw [if_neg hr]; exact ⟨rfl, rfl, rfl, rfl⟩, le_refl 0, ?_, ?_, ?_⟩
    · show ((1350 : ℚ) - img.height * (1080 / img.width)) / 2 ≤ 0
      linarith
    · show (1080 : ℚ) ≤ 0 + 1080
      norm_num
    · show (1350 : ℚ) ≤
        ((1350 : ℚ) - img.height * (1080 / img.width)) / 2 +
          img.height * (1080 / img.width)
      linarith

/-- Witness for C7 at a concrete input: a 2×1 (wide) image. -/
theorem drawImageBackground_cover_witness :
    (0 : ℚ) < (Img.mk 2 1).width ∧ (0 : ℚ) < (Img.mk 2 1).height ∧
    ∃ dx dy dw dh,
      drawImageBackground initialCtx (Img.mk 2 1) =
        (initialCtx, [(initialCtx, Shape.image (Img.mk 2 1) dx dy dw dh)]) ∧
      (if (Img.mk 2 1).width / (Img.mk 2 1).height >
          CANVAS_WIDTH / CANVAS_HEIGHT then
        dh = CANVAS_HEIGHT ∧
          dw = (Img.mk 2 1).width * (CANVAS_HEIGHT / (Img.mk 2 1).height)
          ∧ dx = (CANVAS_WIDTH - dw) / 2 ∧ dy = 0
      else
        dw = CANVAS_WIDTH ∧
          dh = (Img.mk 2 1).height * (CANVAS_WIDTH / (Img.mk 2 1).width)
          ∧ dx = 0 ∧ dy = (CANVAS_HEIGHT - dh) / 2) ∧
      dx ≤ 0 ∧ dy ≤ 0 ∧ CANVAS_WIDTH ≤ dx + dw ∧
        CANVAS_HEIGHT ≤ dy + dh :=
  ⟨by norm_num, by norm_num,
    drawImageBackground_cover initialCtx (Img.mk 2 1) (by norm_num)
      (by norm_num)⟩

/-- C8: for every logo image with positive dimensions and every options
value, `drawLogo` draws one rectangle whose drawn width is the configured
size when `aspectRatio = width/height ≥ 1` (height derived as
`size / aspectRatio`) and whose drawn height is the size otherwise (width
derived as `size * aspectRatio`), placed so that at each of the four
named corner positions its edges are exactly `LOGO_PADDING = 40`
pixels from the corresponding canvas edges, any unrecognized position
falling back to the bottom-left placement. -/
theorem drawLogo_corners (st : Ctx) (logoImg : Img) (options : LogoOptions)
    (_hw : 0 < logoImg.width) (_hh : 0 < logoImg.height) :
    ∃ x y lw lh,
      drawLogo st logoImg options =
        (st, [(st, Shape.image logoImg x y lw lh)]) ∧
      (1 ≤ logoImg.width / logoImg.height →
        lw = options.size.getD 80 ∧
          lh = options.size.getD 80 / (logoImg.width / logoImg.height)) ∧
      (logoImg.width / logoImg.height < 1 →
        lh = options.size.getD 80 ∧
          lw = options.size.getD 80 * (logoImg.width / logoImg.height)) ∧
      (options.position.getD "bottom-left" = "top-left" →
        x = LOGO_PADDING ∧ y = LOGO_PADDING) ∧
      (options.position.getD "bottom-left" = "top-right" →
        x + lw = CANVAS_WIDTH - LOGO_PADDING ∧ y = LOGO_PADDING) ∧
      (options.position.getD "bottom-left" = "bottom-left" →
        x = LOGO_PADDING ∧ y + lh = CANVAS_HEIGHT - LOGO_PADDING) ∧
      (options.position.getD "bottom-left" = "bottom-right" →
        x + lw = CANVAS_WIDTH - LOGO_PADDING ∧
          y + lh = CANVAS_HEIGHT - LOGO_PADDING) ∧
      (options.position.getD "bottom-left" ≠ "top-left" →
        options.position.getD "bottom-left" ≠ "top-right" →
        options.position.getD "bottom-left" ≠ "bottom-left" →
        options.position.getD "bottom-left" ≠ "bottom-right" →
        x = LOGO_PADDING ∧ y + lh = CANVAS_HEIGHT - LOGO_PADDING) := by
  simp only [drawLogo]
  refine ⟨_, _, _, _, rfl, ?_, ?_, ?_, ?_, ?_, ?_, ?_⟩
  · intro h
    rw [if_pos h, if_pos h]
    exact ⟨rfl, rfl⟩
  · intro h
    rw [if_neg (not_le.mpr h), if_neg (not_le.mpr h)]
    exact ⟨rfl, rfl⟩
  · intro h
    rw [if_pos h, if_pos h]
    exact ⟨rfl, rfl⟩
  · intro h
    refine ⟨?_, ?_⟩ <;> (simp +decide [h]; try ring)
  · intro h
    refine ⟨?_, ?_⟩ <;> (simp +decide [h]; try ring)
  · intro h
    refine ⟨?_, ?_⟩ <;> (simp +decide [h]; try ring)
  · intro h1 h2 h3 h4
    refine ⟨?_, ?_⟩ <;> (simp [h1, h2, h3, h4]; try ring)

/-- Witness for C8 at a concrete input: a 2×1 logo placed `top-left`
with size 100. -/
theorem drawLogo_corners_witness :
    (0 : ℚ) < (Img.mk 2 1).width ∧ (0 : ℚ) < (Img.mk 2 1).height ∧
    ∃ x y lw lh,
      drawLogo initialCtx (Img.mk 2 1)
          (LogoOptions.mk (some "top-left") (some 100)) =
        (initialCtx, [(initialCtx, Shape.image (Img.mk 2 1) x y lw lh)]) ∧
      (1 ≤ (Img.mk 2 1).width / (Img.mk 2 1).height →
        lw = (LogoOptions.mk (some "top-left") (some 100)).size.getD 80 ∧
          lh = (LogoOptions.mk (some "top-left") (some 100)).size.getD 80 /
            ((Img.mk 2 1).width / (Img.mk 2 1).height)) ∧
      ((Img.mk 2 1).width / (Img.mk 2 1).height < 1 →
        lh = (LogoOptions.mk (some "top-left") (some 100)).size.getD 80 ∧
          lw = (LogoOptions.mk (some "top-left") (some 100)).size.getD 80 *
            ((Img.mk 2 1).width / (Img.mk 2 1).height)) ∧
      ((LogoOptions.mk (some "top-left") (some 100)).position.getD
          "bottom-left" = "top-left" →
        x = LOGO_PADDING ∧ y = LOGO_PADDING) ∧
      ((LogoOptions.mk (some "top-left") (some 100)).position.getD
          "bottom-left" = "top-right" →
        x + lw = CANVAS_WIDTH - LOGO_PADDING ∧ y = LOGO_PADDING) ∧
      ((LogoOptions.mk (some "top-left") (some 100)).position.getD
          "bottom-left" = "bottom-left" →
        x = LOGO_PADDING ∧ y + lh = CANVAS_HEIGHT - LOGO_PADDING) ∧
      ((LogoOptions.mk (some "top-left") (some 100)).position.getD
          "bottom-left" = "bottom-right" →
        x + lw = CANVAS_WIDTH - LOGO_PADDING ∧
          y + lh = CANVAS_HEIGHT - LOGO_PADDING) ∧
      ((LogoOptions.mk (some "top-left") (some 100)).position.getD
          "bottom-left" ≠ "top-left" →
        (LogoOptions.mk (some "top-left") (some 100)).position.getD
          "bottom-left" ≠ "top-right" →
        (LogoOptions.mk (some "top-left") (some 100)).position.getD
          "bottom-left" ≠ "bottom-left" →
        (LogoOptions.mk (some "top-left") (some 100)).position.getD
          "bottom-left" ≠ "bottom-right" →
        x = LOGO_PADDING ∧ y + lh = CANVAS_HEIGHT - LOGO_PADDING) :=
  ⟨by norm_num, by norm_num,
    drawLogo_corners initialCtx (Img.mk 2 1)
      (LogoOptions.mk (some "top-left") (some 100)) (by norm_num)
      (by norm_num)⟩

/-- C9: `drawText` draws every line with the fixed drop shadow
(`rgba(0, 0, 0, 0.5)`, blur 10, offset 2/2) in force, and afterwards the
context's shadow colour is reset to `'transparent'` — so a subsequent
drawing operation (e.g. the logo) is not affected by the shadow, a
transparent shadow colour disabling shadow rendering — while the rest of
the drawing state (fill style, font, alignment, baseline, and the shadow
blur/offsets themselves) is left exactly as `drawText` configured it. -/
theorem drawText_shadow (m : String → ℚ) (st : Ctx) (text : String)
    (options : TextOptions) :
    (∀ op ∈ (drawText m st text options).2,
      op.1.shadowColor = "rgba(0, 0, 0, 0.5)" ∧ op.1.shadowBlur = 10 ∧
        op.1.shadowOffsetX = 2 ∧ op.1.shadowOffsetY = 2) ∧
    (drawText m st text options).1.shadowColor = "transparent" ∧
    (drawText m st text options).1.shadowBlur = 10 ∧
    (drawText m st text options).1.shadowOffsetX = 2 ∧
    (drawText m st text options).1.shadowOffsetY = 2 ∧
    (drawText m st text options).1.fillStyle =
      options.color.getD "#ffffff" ∧
    (drawText m st text options).1.textAlign =
      options.align.getD "center" ∧
    (drawText m st text options).1.textBaseline = "middle" ∧
    (drawText m st text options).1.font =
      "bold " ++ toString (options.fontSize.getD 64) ++ "px \"" ++
        options.fontFamily.getD "Montserrat" ++ "\", sans-serif" := by
  constructor
  · intro op hop
    simp only [drawText, List.mem_map] at hop
    obtain ⟨p, _, hp⟩ := hop
    rw [← hp]
    exact ⟨rfl, rfl, rfl, rfl⟩
  · exact ⟨rfl, rfl, rfl, rfl, rfl, rfl, rfl, rfl⟩

/-- Witness for C9 at a concrete input: the first (and only) drawn line
of the text `"hi"` rendered with the one-unit-per-character measurer on a
fresh context carries the fixed shadow, and the post-call context state
is as configured with a transparent shadow colour. -/
theorem drawText_shadow_witness :
    ((drawText measLen initialCtx "hi"
        (TextOptions.mk none none none none)).2.headI.1.shadowColor =
      "rgba(0, 0, 0, 0.5)" ∧
    (drawText measLen initialCtx "hi"
        (TextOptions.mk none none none none)).2.headI.1.shadowBlur = 10 ∧
    (drawText measLen initialCtx "hi"
        (TextOptions.mk none none none none)).2.headI.1.shadowOffsetX = 2 ∧
    (drawText measLen initialCtx "hi"
        (TextOptions.mk none none none none)).2.headI.1.shadowOffsetY = 2) ∧
    (drawText measLen initialCtx "hi"
        (TextOptions.mk none none none none)).1.shadowColor =
      "transparent" := by
  have hmw : CANVAS_WIDTH - PADDING * 2 = (920 : ℚ) := by
    norm_num [CANVAS_WIDTH, PADDING]
  have hlines : getWrappedLines measLen "hi" (CANVAS_WIDTH - PADDING * 2)
      = ["hi"] := by
    rw [hmw]
    decide
  have hne : (drawText measLen initialCtx "hi"
      (TextOptions.mk none none none none)).2 ≠ [] := by
    simp [drawText, hlines]
  have hmem : (drawText measLen initialCtx "hi"
      (TextOptions.mk none none none none)).2.headI ∈
      (drawText measLen initialCtx "hi"
        (TextOptions.mk none none none none)).2 := by
    cases h : (drawText measLen initialCtx "hi"
        (TextOptions.mk none none none none)).2 with
    | nil => exact absurd h hne
    | cons a t => simp [List.headI]
  exact ⟨(drawText_shadow measLen initialCtx "hi"
      (TextOptions.mk none none none none)).1 _ hmem,
    (drawText_shadow measLen initialCtx "hi"
      (TextOptions.mk none none none none)).2.1⟩
